import Mathlib

/-!
Shallow embedding of the return-projection core of the buffett_investing
pipeline (src/step8.py, src/step9.py, src/step10.py), together with proofs
about the growth estimator, the two valuation projectors and the reconciler.

Python floats are modelled as exact rationals; the only genuinely real-valued
quantity is the annualized return, whose tenth root is modelled with
Real.rpow on top of the rational return ratio.  Python dictionaries keyed by
fiscal year are modelled as association lists with last-binding-wins lookup,
and raised exceptions (ZeroDivisionError, ValueError from max on an empty
sequence, StatisticsError from mean of an empty sequence) are modelled as
error values of an Except type.
-/

namespace Buffett

/-- Arithmetic mean, `statistics.mean`; callers below only apply it to
non-empty lists, mirroring the source's guarded call sites. -/
def meanQ (l : List ℚ) : ℚ := l.sum / l.length

/-- Stable insertion of a rational into a sorted list, the building block of
the `sorted(data)` call inside `statistics.median`. -/
def insSortQ (a : ℚ) : List ℚ → List ℚ
  | [] => [a]
  | b :: bs => if a ≤ b then a :: b :: bs else b :: insSortQ a bs

/-- Model of `sorted(data)` for rationals (stable insertion sort). -/
def sortQ (l : List ℚ) : List ℚ := l.foldr insSortQ []

/-- Model of `statistics.median`: sort, then take the middle element (odd length) or
the mean of the two middle elements (even length). -/
def medianQ (l : List ℚ) : ℚ :=
  let s := sortQ l
  let n := l.length
  if n % 2 = 1 then s.getD (n / 2) 0
  else (s.getD (n / 2 - 1) 0 + s.getD (n / 2) 0) / 2

/-- Stable insertion of an integer into a sorted list. -/
def insSortInt (a : ℤ) : List ℤ → List ℤ
  | [] => [a]
  | b :: bs => if a ≤ b then a :: b :: bs else b :: insSortInt a bs

/-- Model of `sorted(keys)` for integers (stable insertion sort). -/
def sortInt (l : List ℤ) : List ℤ := l.foldr insSortInt []

/-- Last-binding-wins lookup over an association list, the semantics of a
Python dict built by repeated assignment. -/
def lookupLastAux (y : ℤ) (acc : Option ℚ) : List (ℤ × ℚ) → Option ℚ
  | [] => acc
  | p :: ps => lookupLastAux y (if p.1 = y then some p.2 else acc) ps

/-- Dict access `d[y]` (as an Option; keys produced by the pipeline are
always present when looked up). -/
def lookupLast (l : List (ℤ × ℚ)) (y : ℤ) : Option ℚ := lookupLastAux y none l

/-- Model of `max(d.keys())`; `none` models the ValueError raised on an empty dict. -/
def maxKeyAux (acc : Option ℤ) : List (ℤ × ℚ) → Option ℤ
  | [] => acc
  | p :: ps => maxKeyAux (match acc with | none => some p.1 | some m => some (max m p.1)) ps

/-- Maximum key of an association list, if any. -/
def maxKey (l : List (ℤ × ℚ)) : Option ℤ := maxKeyAux none l

/-- Dict access `d[max(d.keys())]`: value stored at the most recent fiscal year. -/
def latestVal (l : List (ℤ × ℚ)) : Option ℚ :=
  match maxKey l with
  | none => none
  | some y => lookupLast l y

/-- Exceptions that can escape the projection functions: Python's
ZeroDivisionError, the ValueError from `max([])`, and the StatisticsError
from `mean([])`. -/
inductive ProjError where
  | zeroDivision
  | emptySeries
  | statisticsFault
deriving DecidableEq

end Buffett

namespace Buffett.step9

/-- One iteration of the loop body of `calculate_eps_growth_rates`
(src/step9.py lines 130-145): the if/elif chain deciding which growth
observation, if any, a consecutive pair of EPS values contributes. -/
def growthObs (prev_eps curr_eps : ℚ) : Option ℚ :=
  if 0 < prev_eps ∧ 0 < curr_eps then some ((curr_eps - prev_eps) / prev_eps)
  else if prev_eps ≤ 0 ∧ 0 < curr_eps then some (1/2)
  else none

/-- The indexed loop of `calculate_eps_growth_rates`: walk the sorted year
list, fetch each adjacent pair of values from the year→EPS mapping, and
collect the emitted observations. -/
def ratesAux (data : List (ℤ × ℚ)) : List ℤ → List ℚ
  | y1 :: y2 :: rest =>
    let prev_eps := (lookupLast data y1).getD 0
    let curr_eps := (lookupLast data y2).getD 0
    match growthObs prev_eps curr_eps with
    | some r => r :: ratesAux data (y2 :: rest)
    | none => ratesAux data (y2 :: rest)
  | _ => []

/-- Source function `calculate_eps_growth_rates` (src/step9.py lines 115-147): year-over-year
EPS growth observations from a year→EPS mapping. -/
def calculate_eps_growth_rates (eps_data : List (ℤ × ℚ)) : List ℚ :=
  if eps_data.length < 2 then []
  else ratesAux eps_data (sortInt (eps_data.map Prod.fst))

/-- The per-pair observation rule as the specification states it: no
observation when the current value is non-positive, the ratio when both are
strictly positive, the fixed 0.50 on a loss-to-profit transition. -/
def specGrowthObs (prev_eps curr_eps : ℚ) : Option ℚ :=
  if curr_eps ≤ 0 then none
  else if 0 < prev_eps then some ((curr_eps - prev_eps) / prev_eps)
  else some (1/2)

/-- Source function `estimate_future_eps_growth` (src/step9.py lines 149-180). -/
def estimate_future_eps_growth (growth_rates : List ℚ) (method : String) : ℚ :=
  if growth_rates = [] then 0.05
  else if method = "conservative" then
    min (max (medianQ growth_rates) 0) 0.20
  else if method = "average" then
    min (max (meanQ growth_rates) 0) 0.25
  else if method = "trend" then
    let weighted :=
      if 3 ≤ growth_rates.length then
        (((growth_rates.drop (growth_rates.length - 3)).zip [1, 2, 3]).map
          (fun p => p.1 * p.2)).sum / 6
      else meanQ growth_rates
    min (max weighted 0) 0.25
  else 0.05

/-- Source function `calculate_payout_ratio` (src/step9.py lines 182-186). -/
def calculate_payout_ratio (dividends_paid net_income : Option ℚ) : ℚ :=
  match dividends_paid, net_income with
  | some d, some ni => if ni ≤ 0 then 0 else |d| / ni
  | _, _ => 0

/-- Source function `estimate_future_pe_ratio` (src/step9.py lines 188-216).  `none` models
the StatisticsError raised by `mean([])` when the history is non-empty but
holds no strictly positive multiple. -/
def estimate_future_pe_ratio (historical_pe_ratios : List ℚ)
    (projected_growth_rate : ℚ) : Option ℚ :=
  if historical_pe_ratios = [] then
    some (if 0.15 < projected_growth_rate then 15
      else if 0.10 < projected_growth_rate then 12
      else if 0.05 < projected_growth_rate then 10
      else 8)
  else
    let positives := historical_pe_ratios.filter (fun pe => 0 < pe)
    if positives = [] then none
    else
      let avg_historical_pe := meanQ positives
      let future_pe :=
        if 0.15 < projected_growth_rate then min (avg_historical_pe * 1.1) 25
        else if 0.10 < projected_growth_rate then avg_historical_pe
        else if 0.05 < projected_growth_rate then avg_historical_pe * 0.9
        else avg_historical_pe * 0.8
      some (max (min future_pe 30) 6)

/-- Construction of the historical P/E list in `main` (src/step9.py lines
351-358): a multiple is recorded only for years whose EPS is strictly
positive, as `current_price / eps`. -/
def pe_data_of (current_price : ℚ) (epsVals : List ℚ) : List ℚ :=
  epsVals.filterMap (fun eps => if 0 < eps then some (current_price / eps) else none)

/-- The fields of the dict returned by `calculate_eps_projected_return`
(src/step9.py lines 267-278); `return_ratio` is the rational base
`total_future_value / current_price` from which both `total_return` and the
real-valued `annualized_return` derive. -/
structure EpsProjection where
  current_eps : ℚ
  projected_growth_rate : ℚ
  future_eps : ℚ
  future_pe : ℚ
  future_stock_price : ℚ
  current_dividend_per_share : ℚ
  total_dividends : ℚ
  total_future_value : ℚ
  total_return : ℚ
  return_ratio : ℚ
deriving DecidableEq

/-- Total future value computed by the EPS projector before its guard
(src/step9.py lines 238-259), as a function of the latest EPS, the estimated
future multiple, the payout ratio and the growth rate. -/
def epsTotalFutureValue (current_eps future_pe payout_ratio_avg
    projected_growth_rate : ℚ) (years : ℕ) : ℚ :=
  let future_eps := current_eps * (1 + projected_growth_rate) ^ years
  let future_stock_price := future_eps * future_pe
  let current_dividend_per_share := current_eps * payout_ratio_avg
  let total_dividends :=
    if 0 < projected_growth_rate then
      current_dividend_per_share * (((1 + projected_growth_rate) ^ years - 1) / projected_growth_rate)
    else current_dividend_per_share * years
  future_stock_price + total_dividends

/-- Source function `calculate_eps_projected_return` (src/step9.py lines 218-278).
`Except.error` models a raised exception, `.ok none` the two `return None`
branches (non-positive latest EPS, total future value not exceeding the
current price), `.ok (some _)` the returned result dict. -/
def calculate_eps_projected_return (_ticker : String) (current_price : ℚ)
    (eps_data : List (ℤ × ℚ)) (pe_data : List ℚ)
    (payout_ratio_avg projected_growth_rate : ℚ) (years : ℕ) :
    Except ProjError (Option EpsProjection) :=
  match latestVal eps_data with
  | none => .error .emptySeries
  | some current_eps =>
    if current_eps ≤ 0 then .ok none
    else
      let future_eps := current_eps * (1 + projected_growth_rate) ^ years
      match estimate_future_pe_ratio pe_data projected_growth_rate with
      | none => .error .statisticsFault
      | some future_pe =>
        let future_stock_price := future_eps * future_pe
        let current_dividend_per_share := current_eps * payout_ratio_avg
        let total_dividends :=
          if 0 < projected_growth_rate then
            current_dividend_per_share *
              (((1 + projected_growth_rate) ^ years - 1) / projected_growth_rate)
          else current_dividend_per_share * years
        let total_future_value := future_stock_price + total_dividends
        if total_future_value ≤ current_price then .ok none
        else if current_price = 0 then .error .zeroDivision
        else
          .ok (some
            { current_eps := current_eps
              projected_growth_rate := projected_growth_rate
              future_eps := future_eps
              future_pe := future_pe
              future_stock_price := future_stock_price
              current_dividend_per_share := current_dividend_per_share
              total_dividends := total_dividends
              total_future_value := total_future_value
              total_return := total_future_value / current_price - 1
              return_ratio := total_future_value / current_price })

end Buffett.step9

namespace Buffett.step8

/-- Source function `calculate_roe` (src/step8.py lines 114-118). -/
def calculate_roe (net_income shareholders_equity : Option ℚ) : Option ℚ :=
  match net_income, shareholders_equity with
  | some ni, some eq => if eq ≤ 0 then none else some (ni / eq)
  | _, _ => none

/-- Source function `calculate_payout_ratio` (src/step8.py lines 120-124), character for
character the same function as the one in src/step9.py. -/
def calculate_payout_ratio (dividends_paid net_income : Option ℚ) : ℚ :=
  match dividends_paid, net_income with
  | some d, some ni => if ni ≤ 0 then 0 else |d| / ni
  | _, _ => 0

/-- Source function `calculate_retention_ratio` (src/step8.py lines 126-128). -/
def calculate_retention_ratio (payout_ratio : ℚ) : ℚ := 1 - payout_ratio

/-- Source function `project_future_equity` (src/step8.py lines 130-138): returns the pair
(future equity, growth rate) with growth rate = ROE × retention ratio. -/
def project_future_equity (current_equity roe retention_ratio : ℚ)
    (years : ℕ) : ℚ × ℚ :=
  let growth_rate := roe * retention_ratio
  (current_equity * (1 + growth_rate) ^ years, growth_rate)

/-- Source function `estimate_future_pe_ratio` (src/step8.py lines 140-160): tiered
compression of the current multiple, defaulting to 15 when the current
multiple is absent or non-positive. -/
def estimate_future_pe_ratio (current_pe : Option ℚ)
    (projected_growth_rate : ℚ) : ℚ :=
  let cpe := match current_pe with
    | none => (15 : ℚ)
    | some p => if p ≤ 0 then 15 else p
  if 0.15 < projected_growth_rate then max (cpe * 0.9) 12
  else if 0.10 < projected_growth_rate then max (cpe * 0.85) 10
  else if 0.05 < projected_growth_rate then max (cpe * 0.8) 8
  else max (cpe * 0.7) 6

/-- The fields of the dict returned by `calculate_projected_return`
(src/step8.py lines 214-225); `return_ratio` is the rational base
`total_future_value / current_price` of the annualized return. -/
structure RoeProjection where
  retention_ratio : ℚ
  equity_growth_rate : ℚ
  future_equity : ℚ
  future_eps : ℚ
  future_pe : ℚ
  future_stock_price : ℚ
  total_dividends : ℚ
  total_future_value : ℚ
  total_return : ℚ
  return_ratio : ℚ
  current_dividend_per_share : ℚ
deriving DecidableEq

/-- Source function `calculate_projected_return` (src/step8.py lines 162-225).  The function
performs no input validation: the only failure mode is Python's
ZeroDivisionError when shares outstanding (divided through first, line 185)
or the current price (line 209) is exactly zero, modelled as `.error`. -/
def calculate_projected_return (_ticker : String)
    (current_price current_equity current_shares roe_avg payout_ratio_avg : ℚ)
    (current_pe : Option ℚ) (years : ℕ) : Except ProjError RoeProjection :=
  let retention_ratio := calculate_retention_ratio payout_ratio_avg
  let fe := project_future_equity current_equity roe_avg retention_ratio years
  let future_equity := fe.1
  let growth_rate := fe.2
  if current_shares = 0 then .error .zeroDivision
  else
    let future_book_value_per_share := future_equity / current_shares
    let future_eps := future_book_value_per_share * roe_avg
    let future_pe := estimate_future_pe_ratio current_pe growth_rate
    let future_stock_price := future_eps * future_pe
    let current_eps := current_equity * roe_avg / current_shares
    let current_dividend_per_share := current_eps * payout_ratio_avg
    let total_dividends :=
      if 0 < growth_rate then
        current_dividend_per_share * (((1 + growth_rate) ^ years - 1) / growth_rate)
      else current_dividend_per_share * years
    let total_future_value := future_stock_price + total_dividends
    if current_price = 0 then .error .zeroDivision
    else
      .ok
        { retention_ratio := retention_ratio
          equity_growth_rate := growth_rate
          future_equity := future_equity
          future_eps := future_eps
          future_pe := future_pe
          future_stock_price := future_stock_price
          total_dividends := total_dividends
          total_future_value := total_future_value
          total_return := total_future_value / current_price - 1
          return_ratio := total_future_value / current_price
          current_dividend_per_share := current_dividend_per_share }

end Buffett.step8

namespace Buffett

/-- The quantity `(total_future_value / current_price) ** (1 / years) - 1`, the annualized
return (src/step8.py line 212, src/step9.py line 265), as a real number over
the rational return ratio. -/
noncomputable def annualizedReturn (return_ratio : ℚ) (years : ℕ) : ℝ :=
  (return_ratio : ℝ) ^ ((1 : ℝ) / years) - 1

/-- Return ratio carried by a ROE projection outcome (0 on an exception). -/
def roeRatioOf (e : Except ProjError step8.RoeProjection) : ℚ :=
  match e with
  | .ok r => r.return_ratio
  | .error _ => 0

/-- Return ratio carried by an EPS projection outcome (0 on an exception or
an absent projection). -/
def epsRatioOf (e : Except ProjError (Option step9.EpsProjection)) : ℚ :=
  match e with
  | .ok (some r) => r.return_ratio
  | _ => 0

end Buffett

namespace Buffett.step10

/-- Insertion into a strictly sorted duplicate-free list, the combination
`sorted(set(...))` applied to the common tickers (src/step10.py line 48 over
the intersection built on lines 32-34). -/
def insUS {α : Type} [LinearOrder α] (a : α) : List α → List α
  | [] => [a]
  | b :: bs => if a < b then a :: b :: bs else if a = b then b :: bs else b :: insUS a bs

/-- Model of `sorted(set(l))`: strictly ascending list of the distinct elements. -/
def sortedSet {α : Type} [LinearOrder α] (l : List α) : List α :=
  l.foldr insUS []

/-- The columns of a per-method result row that the reconciler reads for the
properties at stake: the ticker and the method's annualized return
(`row['Ticker']`, `row['Annualized_Return']`). -/
abbrev MethodRow := String × ℚ

/-- Python's `str.upper()` on a ticker, character by character. -/
def pyUpper (s : String) : String := String.mk (s.data.map Char.toUpper)

/-- Dict lookup keyed by upper-cased ticker, built by the comprehensions on
src/step10.py lines 43-44 (later rows overwrite earlier ones). -/
def lookupRet (rows : List MethodRow) (t : String) : Option ℚ :=
  rows.foldl (fun acc p => if pyUpper p.1 = t then some p.2 else acc) none

/-- Model of `sorted(common_tickers)` (src/step10.py lines 32-34, 48): the ascending
list of upper-cased tickers present in both method outputs. -/
def sortedCommon (roe_rows eps_rows : List MethodRow) : List String :=
  sortedSet ((roe_rows.map (fun p => pyUpper p.1)).filter
    (fun t => (eps_rows.map (fun p => pyUpper p.1)).contains t))

/-- The fields of a combined record (src/step10.py lines 74-102) that the
claims are about. -/
structure Combined where
  ticker : String
  roe_return : ℚ
  eps_return : ℚ
  average_return : ℚ
  return_difference : ℚ
  return_agreement : ℚ
  meets15 : Bool
  meets12 : Bool
deriving DecidableEq

/-- Per-ticker body of the loop in `combine_return_estimates`
(src/step10.py lines 52-102). -/
def combineEntry (ticker : String) (roe_return eps_return : ℚ) : Combined :=
  let average_return := (roe_return + eps_return) / 2
  { ticker := ticker
    roe_return := roe_return
    eps_return := eps_return
    average_return := average_return
    return_difference := |roe_return - eps_return|
    return_agreement := 1 - |roe_return - eps_return| / max roe_return eps_return
    meets15 := decide (0.15 ≤ average_return)
    meets12 := decide (0.12 ≤ average_return) }

/-- Source function `combine_return_estimates` (src/step10.py lines 25-110): one combined
record per common ticker, in ascending ticker order.  (The Python version
returns None instead of an empty list when there is no common ticker; both
lead to an empty final output.) -/
def combine_return_estimates (roe_rows eps_rows : List MethodRow) : List Combined :=
  (sortedCommon roe_rows eps_rows).filterMap fun t =>
    match lookupRet roe_rows t, lookupRet eps_rows t with
    | some a, some b => some (combineEntry t a b)
    | _, _ => none

/-- Stable insertion for the descending-by-average-return sort:
an element is placed before the first element whose average return it
matches or exceeds, so earlier (ticker-ascending) records keep their
relative order on ties. -/
def insDesc (x : Combined) : List Combined → List Combined
  | [] => [x]
  | y :: ys => if y.average_return ≤ x.average_return then x :: y :: ys
               else y :: insDesc x ys

/-- The sort `results_df.sort_values('Average_Return', ascending=False)`
(src/step10.py line 131).  pandas' default quicksort fixes only the
descending key order, not the relative order of tied records; this insertion
sort is one admissible such sort, and only facts that are invariant under
any reordering (membership of records) are derived from it. -/
def sortByAvgDesc (l : List Combined) : List Combined := l.foldr insDesc []

/-- The final output built in `main` (src/step10.py lines 129-138): sort the
combined records by average return descending, then keep those meeting the
12% threshold. -/
def qualifiedOutput (roe_rows eps_rows : List MethodRow) : List Combined :=
  (sortByAvgDesc (combine_return_estimates roe_rows eps_rows)).filter
    (fun c => c.meets12)

end Buffett.step10

namespace Buffett

/-! Lemmas about the association-list and sorting helpers. -/

theorem lookupLastAux_of_not_mem {y : ℤ} {acc : Option ℚ} {l : List (ℤ × ℚ)}
    (h : ∀ p ∈ l, p.1 ≠ y) : lookupLastAux y acc l = acc := by
  induction l generalizing acc with
  | nil => rfl
  | cons a t ih =>
    have ha : a.1 ≠ y := h a (List.mem_cons_self a t)
    simp only [lookupLastAux, if_neg ha]
    exact ih (fun p hp => h p (List.mem_cons_of_mem a hp))

theorem lookupLast_cons_ne {a : ℤ × ℚ} {l : List (ℤ × ℚ)} {y : ℤ}
    (h : a.1 ≠ y) : lookupLast (a :: l) y = lookupLast l y := by
  simp only [lookupLast, lookupLastAux, if_neg h]

theorem lookupLast_cons_self {a : ℤ × ℚ} {l : List (ℤ × ℚ)}
    (h : ∀ p ∈ l, p.1 ≠ a.1) : lookupLast (a :: l) a.1 = some a.2 := by
  simp only [lookupLast, lookupLastAux, if_pos rfl]
  exact lookupLastAux_of_not_mem h

theorem sortInt_of_sorted {l : List ℤ} (h : l.Pairwise (· < ·)) :
    sortInt l = l := by
  induction l with
  | nil => rfl
  | cons a t ih =>
    have ht : t.Pairwise (· < ·) := h.tail
    have hat : ∀ y ∈ t, a < y := fun y hy => (List.pairwise_cons.mp h).1 y hy
    simp only [sortInt, List.foldr]
    have : List.foldr insSortInt [] t = t := ih ht
    rw [this]
    cases t with
    | nil => rfl
    | cons b s =>
      have : a ≤ b := le_of_lt (hat b (List.mem_cons_self b s))
      simp [insSortInt, this]

end Buffett

namespace Buffett.step9

theorem growthObs_eq_spec (prev_eps curr_eps : ℚ) :
    growthObs prev_eps curr_eps = specGrowthObs prev_eps curr_eps := by
  unfold growthObs specGrowthObs
  rcases le_or_lt curr_eps 0 with hc | hc
  · rw [if_pos hc]
    rw [if_neg (by rintro ⟨-, h⟩; exact absurd hc (not_le.mpr h)),
      if_neg (by rintro ⟨-, h⟩; exact absurd hc (not_le.mpr h))]
  · rw [if_neg (not_le.mpr hc)]
    rcases le_or_lt prev_eps 0 with hp | hp
    · rw [if_neg (by rintro ⟨h, -⟩; exact absurd hp (not_le.mpr h)),
        if_pos ⟨hp, hc⟩, if_neg (not_lt.mpr hp)]
    · rw [if_pos ⟨hp, hc⟩, if_pos hp]

theorem ratesAux_cons_ne {a : ℤ × ℚ} {l : List (ℤ × ℚ)} {ys : List ℤ}
    (h : ∀ y ∈ ys, a.1 ≠ y) : ratesAux (a :: l) ys = ratesAux l ys := by
  induction ys with
  | nil => rfl
  | cons y1 t ih =>
    cases t with
    | nil => rfl
    | cons y2 rest =>
      have h1 : a.1 ≠ y1 := h y1 (List.mem_cons_self _ _)
      have h2 : a.1 ≠ y2 := h y2 (List.mem_cons_of_mem _ (List.mem_cons_self _ _))
      have hrec := ih (fun y hy => h y (List.mem_cons_of_mem _ hy))
      simp only [ratesAux, lookupLast_cons_ne h1, lookupLast_cons_ne h2, hrec]

theorem ratesAux_spec (data : List (ℤ × ℚ))
    (h : data.Pairwise (fun p q => p.1 < q.1)) :
    ratesAux data (data.map Prod.fst) =
      (data.zip data.tail).filterMap (fun pq => specGrowthObs pq.1.2 pq.2.2) := by
  induction data with
  | nil => rfl
  | cons p t ih =>
    cases t with
    | nil => rfl
    | cons q rest =>
      have hpq : p.1 < q.1 := (List.pairwise_cons.mp h).1 q (List.mem_cons_self _ _)
      have hpall : ∀ r ∈ q :: rest, p.1 < r.1 := (List.pairwise_cons.mp h).1
      have hqall : ∀ r ∈ rest, q.1 < r.1 :=
        (List.pairwise_cons.mp (List.pairwise_cons.mp h).2).1
      have hlook1 : lookupLast (p :: q :: rest) p.1 = some p.2 :=
        lookupLast_cons_self (fun r hr => (hpall r hr).ne')
      have hlook2 : lookupLast (p :: q :: rest) q.1 = some q.2 := by
        rw [lookupLast_cons_ne hpq.ne]
        exact lookupLast_cons_self (fun r hr => (hqall r hr).ne')
      have hdrop : ratesAux (p :: q :: rest) (q.1 :: rest.map Prod.fst) =
          ratesAux (q :: rest) (q.1 :: rest.map Prod.fst) := by
        refine ratesAux_cons_ne ?_
        intro y hy
        rcases List.mem_cons.mp hy with rfl | hy2
        · exact hpq.ne
        · rcases List.mem_map.mp hy2 with ⟨r, hr, rfl⟩
          exact (hpall r (List.mem_cons_of_mem _ hr)).ne
      have hih := ih (List.pairwise_cons.mp h).2
      simp only [List.map_cons] at hih ⊢
      simp only [ratesAux, hlook1, hlook2, Option.getD_some, hdrop, hih,
        growthObs_eq_spec, List.zip_cons_cons, List.tail_cons, List.filterMap]
      cases specGrowthObs p.2 q.2 <;> rfl

end Buffett.step9

/-- C1: for an ordered-by-year EPS series the growth-observation list holds,
for each consecutive pair, exactly the ratio (both values positive), the
fixed 0.50 (loss-to-profit), or nothing (current value non-positive); in
particular the series 2020 ↦ -0.50, 2021 ↦ 1.20 yields the single
observation 0.50. -/
theorem claim_C1_growth_observations (eps_data : List (ℤ × ℚ))
    (hsorted : eps_data.Pairwise (fun p q => p.1 < q.1)) :
    Buffett.step9.calculate_eps_growth_rates eps_data =
      (eps_data.zip eps_data.tail).filterMap
        (fun pq => Buffett.step9.specGrowthObs pq.1.2 pq.2.2) ∧
    Buffett.step9.calculate_eps_growth_rates [(2020, -(1/2)), (2021, 6/5)] =
      [1/2] := by
  constructor
  · unfold Buffett.step9.calculate_eps_growth_rates
    by_cases hlen : eps_data.length < 2
    · rw [if_pos hlen]
      match eps_data, hlen with
      | [], _ => rfl
      | [p], _ => rfl
    · rw [if_neg hlen]
      have hkeys : (eps_data.map Prod.fst).Pairwise (· < ·) :=
        List.pairwise_map.mpr hsorted
      rw [Buffett.sortInt_of_sorted hkeys]
      exact Buffett.step9.ratesAux_spec eps_data hsorted
  · norm_num [Buffett.step9.calculate_eps_growth_rates, Buffett.sortInt,
      Buffett.insSortInt, Buffett.step9.ratesAux, Buffett.lookupLast,
      Buffett.lookupLastAux, Buffett.step9.growthObs]

/-- Witness instantiating C1 at the concrete loss-to-profit series from the
specification's end-to-end scenario 4. -/
theorem claim_C1_growth_observations_witness :
    Buffett.step9.calculate_eps_growth_rates [(2020, -(1/2)), (2021, 6/5)] =
      ([((2020 : ℤ), -(1/2 : ℚ)), (2021, 6/5)].zip
          [((2021 : ℤ), (6/5 : ℚ))]).filterMap
        (fun pq => Buffett.step9.specGrowthObs pq.1.2 pq.2.2) :=
  (claim_C1_growth_observations [(2020, -(1/2)), (2021, 6/5)]
    (by decide)).1

namespace Buffett

theorem clamp_bounds {x lo hi : ℚ} (h : lo ≤ hi) :
    lo ≤ min (max x lo) hi ∧ min (max x lo) hi ≤ hi :=
  ⟨le_min (le_max_right x lo) h, min_le_right _ _⟩

end Buffett

/-- C2: the growth estimator returns 0.05 on an empty observation list for
every method; on non-empty lists, `conservative` returns the median clamped
to [0, 0.20], `average` the mean clamped to [0, 0.25], `trend` the
(1,2,3)-weighted average of the last three observations when at least three
exist and otherwise the plain mean, clamped to [0, 0.25]; its output always
lies within the method's clamp bounds. -/
theorem claim_C2_growth_estimator :
    (∀ method : String,
      Buffett.step9.estimate_future_eps_growth [] method = 0.05) ∧
    (∀ gr : List ℚ, gr ≠ [] →
      Buffett.step9.estimate_future_eps_growth gr "conservative" =
        min (max (Buffett.medianQ gr) 0) 0.20) ∧
    (∀ gr : List ℚ, gr ≠ [] →
      Buffett.step9.estimate_future_eps_growth gr "average" =
        min (max (Buffett.meanQ gr) 0) 0.25) ∧
    (∀ gr : List ℚ, 3 ≤ gr.length →
      Buffett.step9.estimate_future_eps_growth gr "trend" =
        min (max ((((gr.drop (gr.length - 3)).zip [1, 2, 3]).map
          (fun p => p.1 * p.2)).sum / 6) 0) 0.25) ∧
    (∀ gr : List ℚ, gr ≠ [] → gr.length < 3 →
      Buffett.step9.estimate_future_eps_growth gr "trend" =
        min (max (Buffett.meanQ gr) 0) 0.25) ∧
    (∀ gr : List ℚ,
      0 ≤ Buffett.step9.estimate_future_eps_growth gr "conservative" ∧
        Buffett.step9.estimate_future_eps_growth gr "conservative" ≤ 0.20) ∧
    (∀ gr : List ℚ,
      0 ≤ Buffett.step9.estimate_future_eps_growth gr "average" ∧
        Buffett.step9.estimate_future_eps_growth gr "average" ≤ 0.25) ∧
    (∀ gr : List ℚ,
      0 ≤ Buffett.step9.estimate_future_eps_growth gr "trend" ∧
        Buffett.step9.estimate_future_eps_growth gr "trend" ≤ 0.25) := by
  have hcons : ∀ gr : List ℚ, gr ≠ [] →
      Buffett.step9.estimate_future_eps_growth gr "conservative" =
        min (max (Buffett.medianQ gr) 0) 0.20 := by
    intro gr hgr
    simp [Buffett.step9.estimate_future_eps_growth, if_neg hgr]
  have havg : ∀ gr : List ℚ, gr ≠ [] →
      Buffett.step9.estimate_future_eps_growth gr "average" =
        min (max (Buffett.meanQ gr) 0) 0.25 := by
    intro gr hgr
    simp [Buffett.step9.estimate_future_eps_growth, if_neg hgr]
  have htrend : ∀ gr : List ℚ, gr ≠ [] →
      Buffett.step9.estimate_future_eps_growth gr "trend" =
        min (max (if 3 ≤ gr.length then
          (((gr.drop (gr.length - 3)).zip [1, 2, 3]).map
            (fun p => p.1 * p.2)).sum / 6
          else Buffett.meanQ gr) 0) 0.25 := by
    intro gr hgr
    simp [Buffett.step9.estimate_future_eps_growth, if_neg hgr]
  refine ⟨?_, hcons, havg, ?_, ?_, ?_, ?_, ?_⟩
  · intro method
    simp [Buffett.step9.estimate_future_eps_growth]
  · intro gr hlen
    have hgr : gr ≠ [] := by
      intro h
      rw [h] at hlen
      exact absurd hlen (by decide)
    rw [htrend gr hgr, if_pos hlen]
  · intro gr hgr hlen
    rw [htrend gr hgr, if_neg (not_le.mpr hlen)]
  · intro gr
    rcases eq_or_ne gr [] with rfl | hgr
    · constructor <;> norm_num [Buffett.step9.estimate_future_eps_growth]
    · rw [hcons gr hgr]
      exact Buffett.clamp_bounds (by norm_num)
  · intro gr
    rcases eq_or_ne gr [] with rfl | hgr
    · constructor <;> norm_num [Buffett.step9.estimate_future_eps_growth]
    · rw [havg gr hgr]
      exact Buffett.clamp_bounds (by norm_num)
  · intro gr
    rcases eq_or_ne gr [] with rfl | hgr
    · constructor <;> norm_num [Buffett.step9.estimate_future_eps_growth]
    · rw [htrend gr hgr]
      exact Buffett.clamp_bounds (by norm_num)

/-- Witness instantiating C2 on a singleton observation list: the
conservative estimate of [0.10] is the clamped median. -/
theorem claim_C2_growth_estimator_witness :
    Buffett.step9.estimate_future_eps_growth [1/10] "conservative" =
      min (max (Buffett.medianQ [1/10]) 0) 0.20 :=
  claim_C2_growth_estimator.2.1 [1/10] (by decide)

/-- C9: calculate_payout_ratio yields 0 when either input is absent or net
income is non-positive, and otherwise |dividends| / net_income with no upper
clamp (the step9 copy is the same function); a ratio above 1 is therefore
possible, making the retention ratio and hence the ROE method's equity
growth rate negative. -/
theorem claim_C9_payout_ratio :
    (∀ ni : Option ℚ, Buffett.step8.calculate_payout_ratio none ni = 0) ∧
    (∀ d : Option ℚ, Buffett.step8.calculate_payout_ratio d none = 0) ∧
    (∀ d ni : ℚ, ni ≤ 0 →
      Buffett.step8.calculate_payout_ratio (some d) (some ni) = 0) ∧
    (∀ d ni : ℚ, 0 < ni →
      Buffett.step8.calculate_payout_ratio (some d) (some ni) = |d| / ni) ∧
    (∀ d ni : Option ℚ, Buffett.step9.calculate_payout_ratio d ni =
      Buffett.step8.calculate_payout_ratio d ni) ∧
    (1 < Buffett.step8.calculate_payout_ratio (some (-3)) (some 2) ∧
      Buffett.step8.calculate_retention_ratio
        (Buffett.step8.calculate_payout_ratio (some (-3)) (some 2)) < 0 ∧
      (Buffett.step8.project_future_equity 1 (1/10)
        (Buffett.step8.calculate_retention_ratio
          (Buffett.step8.calculate_payout_ratio (some (-3)) (some 2))) 10).2 < 0) := by
  refine ⟨?_, ?_, ?_, ?_, ?_, ?_⟩
  · intro ni
    cases ni <;> rfl
  · intro d
    cases d <;> rfl
  · intro d ni h
    simp [Buffett.step8.calculate_payout_ratio, if_pos h]
  · intro d ni h
    simp [Buffett.step8.calculate_payout_ratio, if_neg (not_le.mpr h)]
  · intro d ni
    cases d <;> cases ni <;> rfl
  · refine ⟨?_, ?_, ?_⟩ <;>
      norm_num [Buffett.step8.calculate_payout_ratio,
        Buffett.step8.calculate_retention_ratio,
        Buffett.step8.project_future_equity]

/-- Witness instantiating C9 at dividends −3 and net income 2, a payout
ratio of 1.5. -/
theorem claim_C9_payout_ratio_witness :
    Buffett.step8.calculate_payout_ratio (some (-3)) (some 2) = |(-3 : ℚ)| / 2 :=
  claim_C9_payout_ratio.2.2.2.1 (-3) 2 (by norm_num)

/-- C10: the EPS method's future-multiple estimator fails (StatisticsError
from the mean of an empty filtered list) exactly when fed a non-empty
history with no strictly positive multiple, and is total on every history
built the way the pipeline builds one — as current_price / eps for strictly
positive eps with a positive price. -/
theorem claim_C10_future_pe_totality :
    (∀ (l : List ℚ) (g : ℚ), l ≠ [] → (∀ x ∈ l, x ≤ 0) →
      Buffett.step9.estimate_future_pe_ratio l g = none) ∧
    (∀ (price : ℚ) (epsVals : List ℚ) (g : ℚ), 0 < price →
      ∃ v, Buffett.step9.estimate_future_pe_ratio
        (Buffett.step9.pe_data_of price epsVals) g = some v) := by
  constructor
  · intro l g hne hall
    have hfil : l.filter (fun pe => 0 < pe) = [] := by
      rw [List.filter_eq_nil_iff]
      intro a ha
      simpa using not_lt.mpr (hall a ha)
    simp [Buffett.step9.estimate_future_pe_ratio, if_neg hne, hfil]
  · intro price epsVals g hprice
    have hpos : ∀ x ∈ Buffett.step9.pe_data_of price epsVals, 0 < x := by
      intro x hx
      rcases List.mem_filterMap.mp hx with ⟨e, -, he⟩
      by_cases h : 0 < e
      · rw [if_pos h, Option.some_inj] at he
        rw [← he]
        exact div_pos hprice h
      · rw [if_neg h] at he
        exact absurd he (by simp)
    rcases eq_or_ne (Buffett.step9.pe_data_of price epsVals) [] with hnil | hne
    · rw [hnil]
      simp only [Buffett.step9.estimate_future_pe_ratio, if_pos rfl]
      exact ⟨_, rfl⟩
    · have hfil : (Buffett.step9.pe_data_of price epsVals).filter
          (fun pe => 0 < pe) = Buffett.step9.pe_data_of price epsVals := by
        rw [List.filter_eq_self]
        intro a ha
        simpa using hpos a ha
      simp only [Buffett.step9.estimate_future_pe_ratio, if_neg hne, hfil,
        if_neg hne]
      exact ⟨_, rfl⟩

/-- Witness instantiating C10's totality half on a price of 2 and an EPS
history holding a profit year and a loss year. -/
theorem claim_C10_future_pe_totality_witness :
    ∃ v, Buffett.step9.estimate_future_pe_ratio
      (Buffett.step9.pe_data_of 2 [1, -1]) 0 = some v :=
  claim_C10_future_pe_totality.2 2 [1, -1] 0 (by norm_num)

/-- C6: for a common ticker the reconciler computes the claimed average,
absolute difference and agreement score; when both inputs passed the 0.12
admission gate the divisor max(return_a, return_b) is positive, identical
returns give agreement exactly 1, and the agreement strictly decreases as
the difference grows relative to the larger return. -/
theorem claim_C6_reconciler_agreement (t : String) (a b : ℚ)
    (ha : 0.12 ≤ a) (hb : 0.12 ≤ b) :
    (Buffett.step10.combineEntry t a b).average_return = (a + b) / 2 ∧
    (Buffett.step10.combineEntry t a b).return_difference = |a - b| ∧
    (Buffett.step10.combineEntry t a b).return_agreement =
      1 - |a - b| / max a b ∧
    0 < max a b ∧
    (a = b → (Buffett.step10.combineEntry t a b).return_agreement = 1) ∧
    (∀ a' b' : ℚ, 0.12 ≤ a' → 0.12 ≤ b' →
      |a - b| / max a b < |a' - b'| / max a' b' →
      (Buffett.step10.combineEntry t a' b').return_agreement <
        (Buffett.step10.combineEntry t a b).return_agreement) := by
  refine ⟨rfl, rfl, rfl, ?_, ?_, ?_⟩
  · exact lt_of_lt_of_le (by norm_num) (le_trans ha (le_max_left a b))
  · rintro rfl
    simp [Buffett.step10.combineEntry]
  · intro a' b' _ _ hlt
    simpa [Buffett.step10.combineEntry] using sub_lt_sub_left hlt 1

/-- Witness instantiating C6 at the specification's end-to-end scenario 1:
returns 0.18 and 0.14 for ticker A. -/
theorem claim_C6_reconciler_agreement_witness :
    (Buffett.step10.combineEntry "A" (18/100) (14/100)).return_agreement =
      1 - |(18 : ℚ)/100 - 14/100| / max ((18 : ℚ)/100) (14/100) :=
  (claim_C6_reconciler_agreement "A" (18/100) (14/100)
    (by norm_num) (by norm_num)).2.2.1

namespace Buffett.step10

theorem mem_insUS {α : Type} [LinearOrder α] {x a : α} {l : List α}
    (h : x ∈ insUS a l) : x = a ∨ x ∈ l := by
  induction l with
  | nil => simpa [insUS] using h
  | cons b bs ih =>
    by_cases hab : a < b
    · simpa [insUS, if_pos hab] using h
    · by_cases heq : a = b
      · rw [insUS, if_neg hab, if_pos heq] at h
        subst heq
        exact Or.inr h
      · rw [insUS, if_neg hab, if_neg heq] at h
        rcases List.mem_cons.mp h with rfl | h2
        · exact Or.inr (List.mem_cons_self _ _)
        · rcases ih h2 with rfl | h3
          · exact Or.inl rfl
          · exact Or.inr (List.mem_cons_of_mem _ h3)

theorem mem_sortedSet {α : Type} [LinearOrder α] {x : α} {l : List α}
    (h : x ∈ sortedSet l) : x ∈ l := by
  induction l with
  | nil => exact absurd h (List.not_mem_nil x)
  | cons a t ih =>
    rcases mem_insUS h with rfl | h2
    · exact List.mem_cons_self _ _
    · exact List.mem_cons_of_mem _ (ih h2)

theorem mem_combine (roe_rows eps_rows : List MethodRow) {c : Combined}
    (h : c ∈ combine_return_estimates roe_rows eps_rows) :
    ∃ t ∈ sortedCommon roe_rows eps_rows, ∃ a b : ℚ,
      lookupRet roe_rows t = some a ∧ lookupRet eps_rows t = some b ∧
      c = combineEntry t a b := by
  rcases List.mem_filterMap.mp h with ⟨t, ht, hsome⟩
  refine ⟨t, ht, ?_⟩
  cases ha : lookupRet roe_rows t with
  | none => rw [ha] at hsome; exact absurd hsome (by simp)
  | some a =>
    cases hb : lookupRet eps_rows t with
    | none => rw [ha, hb] at hsome; exact absurd hsome (by simp)
    | some b =>
      rw [ha, hb, Option.some_inj] at hsome
      exact ⟨a, b, rfl, rfl, hsome.symm⟩

theorem mem_insDesc {x a : Combined} {l : List Combined}
    (h : x ∈ insDesc a l) : x = a ∨ x ∈ l := by
  induction l with
  | nil => simpa [insDesc] using h
  | cons b bs ih =>
    by_cases hab : b.average_return ≤ a.average_return
    · simpa [insDesc, if_pos hab] using h
    · rw [insDesc, if_neg hab] at h
      rcases List.mem_cons.mp h with rfl | h2
      · exact Or.inr (List.mem_cons_self _ _)
      · rcases ih h2 with rfl | h3
        · exact Or.inl rfl
        · exact Or.inr (List.mem_cons_of_mem _ h3)

theorem mem_sortByAvgDesc {x : Combined} {l : List Combined}
    (h : x ∈ sortByAvgDesc l) : x ∈ l := by
  induction l with
  | nil => exact absurd h (List.not_mem_nil x)
  | cons a t ih =>
    rcases mem_insDesc h with rfl | h2
    · exact List.mem_cons_self _ _
    · exact List.mem_cons_of_mem _ (ih h2)

end Buffett.step10

/-- C7: every record of the reconciler's final output comes from a ticker
present (up to upper-casing) in both method inputs, has an average return of
at least 0.12, and its excellent flag holds exactly when the average return
is at least 0.15. -/
theorem claim_C7_intersection_and_admission
    (roe_rows eps_rows : List Buffett.step10.MethodRow)
    (c : Buffett.step10.Combined)
    (hc : c ∈ Buffett.step10.qualifiedOutput roe_rows eps_rows) :
    (∃ p ∈ roe_rows, Buffett.step10.pyUpper p.1 = c.ticker) ∧
    (∃ p ∈ eps_rows, Buffett.step10.pyUpper p.1 = c.ticker) ∧
    0.12 ≤ c.average_return ∧
    (c.meets15 = true ↔ 0.15 ≤ c.average_return) := by
  unfold Buffett.step10.qualifiedOutput at hc
  rcases List.mem_filter.mp hc with ⟨hsort, hq⟩
  have hcomb := Buffett.step10.mem_sortByAvgDesc hsort
  rcases Buffett.step10.mem_combine roe_rows eps_rows hcomb with
    ⟨t, ht, a, b, -, -, hceq⟩
  subst hceq
  have htmem := Buffett.step10.mem_sortedSet ht
  rcases List.mem_filter.mp htmem with ⟨htroe, htin⟩
  rcases List.mem_map.mp htroe with ⟨p, hp, hpt⟩
  have hteps : t ∈ eps_rows.map (fun p => Buffett.step10.pyUpper p.1) := by
    simpa using htin
  rcases List.mem_map.mp hteps with ⟨q, hq2, hqt⟩
  refine ⟨⟨p, hp, hpt⟩, ⟨q, hq2, hqt⟩, ?_, ?_⟩
  · exact of_decide_eq_true hq
  · exact decide_eq_true_iff

/-- Witness instantiating C7: with ROE input {a ↦ 0.18} and EPS input
{A ↦ 0.14} the single output record satisfies the intersection, admission
and tier properties. -/
theorem claim_C7_intersection_and_admission_witness :
    (∃ p ∈ [(("a", 18/100) : Buffett.step10.MethodRow)],
      Buffett.step10.pyUpper p.1 =
        (Buffett.step10.combineEntry "A" (18/100) (14/100)).ticker) ∧
    (∃ p ∈ [(("A", 14/100) : Buffett.step10.MethodRow)],
      Buffett.step10.pyUpper p.1 =
        (Buffett.step10.combineEntry "A" (18/100) (14/100)).ticker) ∧
    0.12 ≤ (Buffett.step10.combineEntry "A" (18/100) (14/100)).average_return ∧
    ((Buffett.step10.combineEntry "A" (18/100) (14/100)).meets15 = true ↔
      0.15 ≤ (Buffett.step10.combineEntry "A" (18/100) (14/100)).average_return) :=
  claim_C7_intersection_and_admission [("a", 18/100)] [("A", 14/100)]
    (Buffett.step10.combineEntry "A" (18/100) (14/100))
    (by
      have hmeets : (Buffett.step10.combineEntry "A" (18/100) (14/100)).meets12 =
          true := by
        norm_num [Buffett.step10.combineEntry]
      unfold Buffett.step10.qualifiedOutput
      rw [show Buffett.step10.combine_return_estimates [("a", 18/100)]
          [("A", 14/100)] =
          [Buffett.step10.combineEntry "A" (18/100) (14/100)] from rfl]
      rw [show Buffett.step10.sortByAvgDesc
          [Buffett.step10.combineEntry "A" (18/100) (14/100)] =
          [Buffett.step10.combineEntry "A" (18/100) (14/100)] from rfl]
      simp [List.filter_cons, hmeets])

namespace Buffett

/-- A strictly smaller non-negative return ratio gives a strictly smaller
annualized return (strict monotonicity of the real root). -/
theorem annualizedReturn_lt {a b : ℚ} (h0 : 0 ≤ a) (hab : a < b)
    {years : ℕ} (hy : 0 < years) :
    annualizedReturn a years < annualizedReturn b years := by
  unfold annualizedReturn
  have hz : (0 : ℝ) < 1 / years := by
    have : (0 : ℝ) < years := by exact_mod_cast hy
    positivity
  exact sub_lt_sub_right
    (Real.rpow_lt_rpow (by exact_mod_cast h0) (by exact_mod_cast hab) hz) 1

/-- A return ratio below one gives a negative annualized return. -/
theorem annualizedReturn_neg {a : ℚ} (h0 : 0 ≤ a) (h1 : a < 1)
    {years : ℕ} (hy : 0 < years) : annualizedReturn a years < 0 := by
  unfold annualizedReturn
  have hz : (0 : ℝ) < 1 / years := by
    have : (0 : ℝ) < years := by exact_mod_cast hy
    positivity
  have := Real.rpow_lt_one (x := (a : ℚ)) (z := 1 / years)
    (by exact_mod_cast h0) (by exact_mod_cast h1) hz
  linarith

theorem lookupLastAux_map_smul (c : ℚ) (y : ℤ) (l : List (ℤ × ℚ)) :
    ∀ acc : Option ℚ,
      lookupLastAux y (acc.map (fun v => c * v))
        (l.map (fun pr => (pr.1, c * pr.2))) =
      (lookupLastAux y acc l).map (fun v => c * v) := by
  induction l with
  | nil => intro acc; rfl
  | cons p ps ih =>
    intro acc
    simp only [List.map_cons, lookupLastAux]
    by_cases hp : p.1 = y
    · rw [if_pos hp, if_pos hp, show some (c * p.2) = (some p.2).map
        (fun v => c * v) from rfl, ih]
    · rw [if_neg hp, if_neg hp, ih]

theorem lookupLast_map_smul (c : ℚ) (y : ℤ) (l : List (ℤ × ℚ)) :
    lookupLast (l.map (fun pr => (pr.1, c * pr.2))) y =
      (lookupLast l y).map (fun v => c * v) := by
  have := lookupLastAux_map_smul c y l none
  simpa [lookupLast] using this

theorem maxKeyAux_map_smul (c : ℚ) (l : List (ℤ × ℚ)) :
    ∀ acc : Option ℤ,
      maxKeyAux acc (l.map (fun pr => (pr.1, c * pr.2))) = maxKeyAux acc l := by
  induction l with
  | nil => intro acc; rfl
  | cons p ps ih => intro acc; simp only [List.map_cons, maxKeyAux, ih]

theorem latestVal_map_smul (c : ℚ) (l : List (ℤ × ℚ)) :
    latestVal (l.map (fun pr => (pr.1, c * pr.2))) =
      (latestVal l).map (fun v => c * v) := by
  unfold latestVal maxKey
  rw [maxKeyAux_map_smul]
  cases maxKeyAux none l with
  | none => rfl
  | some y => exact lookupLast_map_smul c y l

end Buffett

/-- C5: whenever the EPS projector's computed total future value does not
exceed the current price it returns no projection (an absent result), while
the ROE projector on an analogous input returns a record carrying a
negative total and annualized return, with no such guard. -/
theorem claim_C5_degenerate_projection :
    (∀ (t : String) (p : ℚ) (eps_data : List (ℤ × ℚ)) (pe_data : List ℚ)
        (payout g : ℚ) (years : ℕ) (ce fpe : ℚ),
      Buffett.latestVal eps_data = some ce →
      Buffett.step9.estimate_future_pe_ratio pe_data g = some fpe →
      Buffett.step9.epsTotalFutureValue ce fpe payout g years ≤ p →
      Buffett.step9.calculate_eps_projected_return t p eps_data pe_data
        payout g years = .ok none) ∧
    (∃ r : Buffett.step8.RoeProjection,
      Buffett.step8.calculate_projected_return "X" 100 1 1 (1/10) 0
        (some 10) 10 = .ok r ∧
      r.total_future_value ≤ 100 ∧ r.total_return < 0 ∧
      Buffett.annualizedReturn r.return_ratio 10 < 0) := by
  constructor
  · intro t p eps_data pe_data payout g years ce fpe hlatest hpe hguard
    simp only [Buffett.step9.calculate_eps_projected_return, hlatest]
    by_cases hce : ce ≤ 0
    · rw [if_pos hce]
    · rw [if_neg hce]
      simp only [hpe]
      rw [show (ce * (1 + g) ^ years * fpe +
          if 0 < g then ce * payout * (((1 + g) ^ years - 1) / g)
          else ce * payout * (years : ℚ)) =
          Buffett.step9.epsTotalFutureValue ce fpe payout g years from rfl,
        if_pos hguard]
  · refine ⟨_, rfl, ?_, ?_, ?_⟩
    · norm_num [Buffett.step8.calculate_projected_return,
        Buffett.step8.calculate_retention_ratio,
        Buffett.step8.project_future_equity,
        Buffett.step8.estimate_future_pe_ratio]
    · norm_num [Buffett.step8.calculate_projected_return,
        Buffett.step8.calculate_retention_ratio,
        Buffett.step8.project_future_equity,
        Buffett.step8.estimate_future_pe_ratio]
    · refine Buffett.annualizedReturn_neg ?_ ?_ (by norm_num)
      · norm_num [Buffett.step8.calculate_projected_return,
          Buffett.step8.calculate_retention_ratio,
          Buffett.step8.project_future_equity,
          Buffett.step8.estimate_future_pe_ratio]
      · norm_num [Buffett.step8.calculate_projected_return,
          Buffett.step8.calculate_retention_ratio,
          Buffett.step8.project_future_equity,
          Buffett.step8.estimate_future_pe_ratio]

/-- Witness instantiating C5's guard half: a single 2022 EPS of 1, no P/E
history, zero growth and a price of 100 make the total future value 8 ≤ 100,
so the EPS projector reports no projection. -/
theorem claim_C5_degenerate_projection_witness :
    Buffett.step9.calculate_eps_projected_return "X" 100 [(2022, 1)] [] 0 0
      10 = .ok none :=
  claim_C5_degenerate_projection.1 "X" 100 [(2022, 1)] [] 0 0 10 1 8
    rfl
    (by norm_num [Buffett.step9.estimate_future_pe_ratio])
    (by norm_num [Buffett.step9.epsTotalFutureValue])

/-- C4 counterexample: at a current price of 0 the ROE projector raises an
arithmetic fault rather than reporting insufficient data, and at a current
price of −1 (≤ 0) it returns a computed result instead of dropping the
ticker. -/
theorem claim_C4_arithmetic_guard_cex :
    Buffett.step8.calculate_projected_return "X" 0 1 1 (1/10) 0 (some 10) 10 =
      .error .zeroDivision ∧
    ∃ r, Buffett.step8.calculate_projected_return "X" (-1) 1 1 (1/10) 0
      (some 10) 10 = .ok r :=
  ⟨rfl, ⟨_, rfl⟩⟩

/-- C4 amended: the projectors perform no insufficient-data checks on the
current price or the units outstanding — the ROE projector returns a
computed result for every nonzero price and nonzero share count (negative
included), raises a division fault exactly when the price or the share count
is zero, the EPS projector raises a fault on an empty EPS series, and the
growing-annuity division by the growth rate is the one division that is
guarded (the flat-annuity branch is taken when the growth rate is not
positive). -/
theorem claim_C4_arithmetic_guard_amended :
    (∀ (t : String) (p E S roe payout : ℚ) (pe : Option ℚ) (years : ℕ),
      p ≠ 0 → S ≠ 0 →
      ∃ r, Buffett.step8.calculate_projected_return t p E S roe payout pe
        years = .ok r) ∧
    (∀ (t : String) (E S roe payout : ℚ) (pe : Option ℚ) (years : ℕ),
      S ≠ 0 →
      Buffett.step8.calculate_projected_return t 0 E S roe payout pe years =
        .error .zeroDivision) ∧
    (∀ (t : String) (p E roe payout : ℚ) (pe : Option ℚ) (years : ℕ),
      Buffett.step8.calculate_projected_return t p E 0 roe payout pe years =
        .error .zeroDivision) ∧
    (∀ (t : String) (p : ℚ) (pe_data : List ℚ) (payout g : ℚ) (years : ℕ),
      Buffett.step9.calculate_eps_projected_return t p [] pe_data payout g
        years = .error .emptySeries) ∧
    (∀ (t : String) (p E S roe payout : ℚ) (pe : Option ℚ) (years : ℕ),
      p ≠ 0 → S ≠ 0 → roe * (1 - payout) ≤ 0 →
      ∃ r, Buffett.step8.calculate_projected_return t p E S roe payout pe
        years = .ok r ∧
        r.total_dividends = E * roe / S * payout * years) := by
  refine ⟨?_, ?_, ?_, ?_, ?_⟩
  · intro t p E S roe payout pe years hp hS
    simp only [Buffett.step8.calculate_projected_return, if_neg hS, if_neg hp]
    exact ⟨_, rfl⟩
  · intro t E S roe payout pe years hS
    simp [Buffett.step8.calculate_projected_return, if_neg hS]
  · intro t p E roe payout pe years
    simp [Buffett.step8.calculate_projected_return]
  · intro t p pe_data payout g years
    rfl
  · intro t p E S roe payout pe years hp hS hg
    simp only [Buffett.step8.calculate_projected_return,
      Buffett.step8.calculate_retention_ratio,
      Buffett.step8.project_future_equity, if_neg hS, if_neg hp]
    refine ⟨_, rfl, ?_⟩
    simp only
    rw [if_neg (not_lt.mpr hg)]

/-- Witness instantiating C4's amended claim: with all inputs 1 (and a
current multiple of 10) the ROE projector returns a result. -/
theorem claim_C4_arithmetic_guard_amended_witness :
    ∃ r, Buffett.step8.calculate_projected_return "X" 1 1 1 (1/10) 0
      (some 10) 10 = .ok r :=
  claim_C4_arithmetic_guard_amended.1 "X" 1 1 1 (1/10) 0 (some 10) 10
    (by norm_num) (by norm_num)

namespace Buffett.step9

theorem epsTotalFutureValue_smul (ce fpe payout g : ℚ) (years : ℕ) :
    epsTotalFutureValue (2 * ce) fpe payout g years =
      2 * epsTotalFutureValue ce fpe payout g years := by
  unfold epsTotalFutureValue
  by_cases hg : 0 < g
  · simp only [if_pos hg]
    ring
  · simp only [if_neg hg]
    ring

end Buffett.step9

/-- C3 counterexample: for the ROE instantiation, doubling current price,
current equity and units outstanding together (from 1, 1, 1 to 2, 2, 2 with
average ROE 0.10, no payout, current multiple 10, a 10-year horizon) changes
the annualized return, so the claimed joint scale invariance of both
instantiations fails. -/
theorem claim_C3_scale_invariance_cex :
    Buffett.annualizedReturn (Buffett.roeRatioOf
      (Buffett.step8.calculate_projected_return "X" (2 * 1) (2 * 1) (2 * 1)
        (1/10) 0 (some 10) 10)) 10 ≠
    Buffett.annualizedReturn (Buffett.roeRatioOf
      (Buffett.step8.calculate_projected_return "X" 1 1 1 (1/10) 0 (some 10)
        10)) 10 := by
  have h2 : Buffett.roeRatioOf
      (Buffett.step8.calculate_projected_return "X" (2 * 1) (2 * 1) (2 * 1)
        (1/10) 0 (some 10) 10) = 25937424601 / 25000000000 := by
    norm_num [Buffett.step8.calculate_projected_return,
      Buffett.step8.calculate_retention_ratio,
      Buffett.step8.project_future_equity,
      Buffett.step8.estimate_future_pe_ratio, Buffett.roeRatioOf]
  have h1 : Buffett.roeRatioOf
      (Buffett.step8.calculate_projected_return "X" 1 1 1 (1/10) 0 (some 10)
        10) = 25937424601 / 12500000000 := by
    norm_num [Buffett.step8.calculate_projected_return,
      Buffett.step8.calculate_retention_ratio,
      Buffett.step8.project_future_equity,
      Buffett.step8.estimate_future_pe_ratio, Buffett.roeRatioOf]
  rw [h1, h2]
  exact ne_of_lt (Buffett.annualizedReturn_lt (by norm_num) (by norm_num)
    (by norm_num))

/-- C3 amended: the EPS instantiation is scale-invariant — doubling the
current price and the EPS series leaves the annualized return unchanged
(units outstanding is not an input to it) — and the ROE instantiation is
scale-invariant when the current price and the current equity are doubled
with units outstanding held fixed; doubling the units as well changes the
annualized return (see the counterexample). -/
theorem claim_C3_scale_invariance_amended :
    (∀ (t : String) (p E S roe payout : ℚ) (pe : Option ℚ) (years : ℕ),
      p ≠ 0 → S ≠ 0 →
      Buffett.annualizedReturn (Buffett.roeRatioOf
        (Buffett.step8.calculate_projected_return t (2 * p) (2 * E) S roe
          payout pe years)) years =
      Buffett.annualizedReturn (Buffett.roeRatioOf
        (Buffett.step8.calculate_projected_return t p E S roe payout pe
          years)) years) ∧
    (∀ (t : String) (p : ℚ) (eps_data : List (ℤ × ℚ)) (pe_data : List ℚ)
        (payout g : ℚ) (years : ℕ),
      p ≠ 0 →
      Buffett.annualizedReturn (Buffett.epsRatioOf
        (Buffett.step9.calculate_eps_projected_return t (2 * p)
          (eps_data.map (fun pr => (pr.1, 2 * pr.2))) pe_data payout g
          years)) years =
      Buffett.annualizedReturn (Buffett.epsRatioOf
        (Buffett.step9.calculate_eps_projected_return t p eps_data pe_data
          payout g years)) years) := by
  constructor
  · intro t p E S roe payout pe years hp hS
    have h2p : (2 : ℚ) * p ≠ 0 := mul_ne_zero two_ne_zero hp
    simp only [Buffett.step8.calculate_projected_return,
      Buffett.step8.calculate_retention_ratio,
      Buffett.step8.project_future_equity, if_neg hS, if_neg hp, if_neg h2p,
      Buffett.roeRatioOf]
    congr 1
    by_cases hg : 0 < roe * (1 - payout)
    · rw [if_pos hg, if_pos hg]
      field_simp
      ring
    · rw [if_neg hg, if_neg hg]
      field_simp
      ring
  · intro t p eps_data pe_data payout g years hp
    have h2p : (2 : ℚ) * p ≠ 0 := mul_ne_zero two_ne_zero hp
    cases hl : Buffett.latestVal eps_data with
    | none =>
      have hl2 : Buffett.latestVal
          (eps_data.map (fun pr => (pr.1, 2 * pr.2))) = none := by
        rw [Buffett.latestVal_map_smul, hl]
        rfl
      simp only [Buffett.step9.calculate_eps_projected_return, hl, hl2]
    | some ce =>
      have hl2 : Buffett.latestVal
          (eps_data.map (fun pr => (pr.1, 2 * pr.2))) = some (2 * ce) := by
        rw [Buffett.latestVal_map_smul, hl]
        rfl
      simp only [Buffett.step9.calculate_eps_projected_return, hl, hl2]
      by_cases hce : ce ≤ 0
      · rw [if_pos hce, if_pos (by linarith : 2 * ce ≤ 0)]
      · rw [if_neg hce, if_neg (by
          push_neg at hce ⊢
          linarith : ¬2 * ce ≤ 0)]
        cases hpe : Buffett.step9.estimate_future_pe_ratio pe_data g with
        | none => simp only [hpe]
        | some fpe =>
          simp only [hpe]
          rw [show (2 * ce * (1 + g) ^ years * fpe +
              if 0 < g then 2 * ce * payout * (((1 + g) ^ years - 1) / g)
              else 2 * ce * payout * (years : ℚ)) =
              Buffett.step9.epsTotalFutureValue (2 * ce) fpe payout g years
              from rfl,
            show (ce * (1 + g) ^ years * fpe +
              if 0 < g then ce * payout * (((1 + g) ^ years - 1) / g)
              else ce * payout * (years : ℚ)) =
              Buffett.step9.epsTotalFutureValue ce fpe payout g years
              from rfl,
            Buffett.step9.epsTotalFutureValue_smul]
          by_cases hguard :
            Buffett.step9.epsTotalFutureValue ce fpe payout g years ≤ p
          · rw [if_pos hguard, if_pos (by linarith :
              2 * Buffett.step9.epsTotalFutureValue ce fpe payout g years ≤
                2 * p)]
          · rw [if_neg hguard, if_neg (by
              intro h
              exact hguard (by linarith) :
              ¬2 * Buffett.step9.epsTotalFutureValue ce fpe payout g years ≤
                2 * p),
              if_neg hp, if_neg h2p]
            simp only [Buffett.epsRatioOf]
            rw [mul_div_mul_left _ _ (two_ne_zero)]

/-- Witness instantiating C3's amended claim on both halves at concrete
inputs: the ROE projector at doubled price and equity with shares fixed, and
the EPS projector at doubled price and EPS series. -/
theorem claim_C3_scale_invariance_amended_witness :
    Buffett.annualizedReturn (Buffett.roeRatioOf
      (Buffett.step8.calculate_projected_return "X" (2 * 1) (2 * 1) 1 (1/10)
        0 (some 10) 10)) 10 =
    Buffett.annualizedReturn (Buffett.roeRatioOf
      (Buffett.step8.calculate_projected_return "X" 1 1 1 (1/10) 0 (some 10)
        10)) 10 :=
  claim_C3_scale_invariance_amended.1 "X" 1 1 1 (1/10) 0 (some 10) 10
    (by norm_num) (by norm_num)
